import Mathlib

/-!
Shallow embedding of `src/main.c` from the PSoC 6 comparator-hibernate-wakeup
example, and proofs of the specification claims about it.

The program is a single-threaded control loop.  We embed it as a
trace-producing function: the environment `Env` fixes the outcomes of the
fallible platform calls (`cybsp_init`, `cy_retarget_io_init`,
`cyhal_comp_init`, `cyhal_syspm_hibernate`) and the finite sequence of
comparator readings supplied to the run; the embedding returns the list of
observable hardware/console actions the program performs, together with the
final outcome of the run.  A run whose reading list is exhausted while the
comparator stays HIGH is still in the sensing loop (`Outcome.running`);
the trace produced is the exact sequence of actions up to that point.

The `#if defined (CY_DEVICE_SECURE)` watchdog block at the top of `main` is
compile-time excluded on non-secure targets and is not modelled; all cited
code lines of the claims lie outside it.  The
`#ifdef TARGET_APP_CY8CKIT_062S2_43012` drive-mode line inside
`lpcomp_enter_hibernate_mode` is modelled by the `highZVariant` flag of the
environment, since it sits in the middle of the hibernate entry sequence.
LED polarity (`CYBSP_LED_STATE_ON`/`OFF`) is board specific; we model the
logical on/off level as a `Bool` with `true` = ON.
-/

/-- Comparator power level (`cyhal_power_level_t`, the values used here). -/
inductive PowerLevel
  | low
  | medium
  | high
deriving DecidableEq, Repr

/-- `cyhal_comp_config_t`: the comparator configuration record. -/
structure CompConfig where
  power : PowerLevel
  hysteresis : Bool
deriving DecidableEq, Repr

/-- `myCompConfig` from `src/main.c` lines 37-41:
`{ .power = CYHAL_POWER_LEVEL_LOW, .hysteresis = CYHAL_HYSTERESIS_DISABLE }`. -/
def myCompConfig : CompConfig :=
  { power := PowerLevel.low, hysteresis := false }

/-- `cyhal_syspm_hibernate_source_t`: wake sources for hibernate.  Only
`LPCOMP0_HIGH` is used by the program; `other` stands for any other member
of the enumeration. -/
inductive HibernateSource
  | lpcomp0High
  | other
deriving DecidableEq, Repr

/-- The constant `CYHAL_SYSPM_HIBERNATE_LPCOMP0_HIGH`. -/
def CYHAL_SYSPM_HIBERNATE_LPCOMP0_HIGH : HibernateSource :=
  HibernateSource.lpcomp0High

/-- GPIO pins touched by the program (only the user LED is written). -/
inductive Pin
  | userLed
deriving DecidableEq, Repr

/-- `CYBSP_LED_STATE_ON` as a logical level. -/
def CYBSP_LED_STATE_ON : Bool := true

/-- `CYBSP_LED_STATE_OFF` as a logical level. -/
def CYBSP_LED_STATE_OFF : Bool := false

/-- The distinct console messages printed by the program. -/
inductive Msg
  | clearScreen
  | banner
  | normalMode
  | enterHib
  | fatalNotEntered
deriving DecidableEq, Repr

/-- Observable actions of the program, in program order.  Fallible calls
record the status the environment assigned to them. -/
inductive Event
  | bspInit (ok : Bool)
  | enableIrq
  | retargetInit (ok : Bool)
  | printMsg (m : Msg)
  | compInit (cfg : CompConfig) (ok : Bool)
  | connectUlpReference
  | ulpReferenceEnable
  | compSetPower (p : PowerLevel)
  | delayUs (n : Nat)
  | delayMs (n : Nat)
  | gpioInit (pin : Pin) (val : Bool)
  | gpioWrite (pin : Pin) (val : Bool)
  | gpioToggle (pin : Pin)
  | compRead (val : Bool)
  | retargetDeinit
  | setDrivemodeHighZ
  | hibernateCall (src : HibernateSource)
  | assertTrap
deriving DecidableEq, Repr

/-- Final outcome of a (finite) run. -/
inductive Outcome
  | running
  | hibernated
  | halted
deriving DecidableEq, Repr

/-- Environment of a run: results of the fallible platform calls and the
sequence of comparator readings (`true` = `MY_LPCOMP_OUTPUT_HIGH`). -/
structure Env where
  bspOk : Bool
  ioOk : Bool
  compInitOk : Bool
  readings : List Bool
  hibOk : Bool
  reinitOk : Bool
  highZVariant : Bool
deriving DecidableEq, Repr

/-- `lpcomp_enter_hibernate_mode` (`src/main.c` lines 70-98): LED on,
2000 ms delay, LED off, message, retarget-io deinit, (variant-only)
high-impedance drive mode, hibernate call; on non-success status the
console is re-initialised (status unchecked), the fatal message printed and
`CY_ASSERT(0)` traps. -/
def lpcomp_enter_hibernate_mode (src : HibernateSource) (env : Env) :
    List Event × Outcome :=
  let pre : List Event :=
    [Event.gpioWrite Pin.userLed CYBSP_LED_STATE_ON,
     Event.delayMs 2000,
     Event.gpioWrite Pin.userLed CYBSP_LED_STATE_OFF,
     Event.printMsg Msg.enterHib,
     Event.retargetDeinit]
    ++ (if env.highZVariant then [Event.setDrivemodeHighZ] else [])
    ++ [Event.hibernateCall src]
  if env.hibOk then
    (pre, Outcome.hibernated)
  else
    (pre ++ [Event.retargetInit env.reinitOk,
             Event.printMsg Msg.fatalNotEntered,
             Event.assertTrap],
     Outcome.halted)

/-- The `for (;;)` sensing loop of `main` (`src/main.c` lines 178-195),
consuming one comparator reading per iteration.  HIGH: toggle LED, 500 ms
delay, status message, loop.  LOW: enter hibernate mode with the fixed
wake source (the call does not return). -/
def sensingLoop (env : Env) : List Bool → List Event × Outcome
  | [] => ([], Outcome.running)
  | r :: rs =>
    if r then
      let rest := sensingLoop env rs
      (Event.compRead true
        :: Event.gpioToggle Pin.userLed
        :: Event.delayMs 500
        :: Event.printMsg Msg.normalMode
        :: rest.1,
       rest.2)
    else
      let hib := lpcomp_enter_hibernate_mode CYHAL_SYSPM_HIBERNATE_LPCOMP0_HIGH env
      (Event.compRead false :: hib.1, hib.2)

/-- `main` (`src/main.c` lines 114-196): board init (halt on failure),
enable interrupts, retarget-io init (halt on failure), banner, comparator
setup (status of `cyhal_comp_init` recorded but never checked), LED init,
then the sensing loop. -/
def mainRun (env : Env) : List Event × Outcome :=
  if env.bspOk then
    if env.ioOk then
      let setup : List Event :=
        [Event.bspInit true,
         Event.enableIrq,
         Event.retargetInit true,
         Event.printMsg Msg.clearScreen,
         Event.printMsg Msg.banner,
         Event.compInit myCompConfig env.compInitOk,
         Event.connectUlpReference,
         Event.ulpReferenceEnable,
         Event.compSetPower PowerLevel.low,
         Event.delayUs 50,
         Event.gpioInit Pin.userLed CYBSP_LED_STATE_OFF]
      let loop := sensingLoop env env.readings
      (setup ++ loop.1, loop.2)
    else
      ([Event.bspInit true, Event.enableIrq, Event.retargetInit false,
        Event.assertTrap],
       Outcome.halted)
  else
    ([Event.bspInit false, Event.assertTrap], Outcome.halted)

/-! ## Trace descriptions and unfolding lemmas -/

/-- The fixed start-up trace of a run whose board and console
initialisation both succeed: everything `main` does before the first loop
iteration. -/
def setupTrace (env : Env) : List Event :=
  [Event.bspInit true,
   Event.enableIrq,
   Event.retargetInit true,
   Event.printMsg Msg.clearScreen,
   Event.printMsg Msg.banner,
   Event.compInit myCompConfig env.compInitOk,
   Event.connectUlpReference,
   Event.ulpReferenceEnable,
   Event.compSetPower PowerLevel.low,
   Event.delayUs 50,
   Event.gpioInit Pin.userLed CYBSP_LED_STATE_OFF]

/-- The trace of one HIGH loop iteration: read HIGH, toggle the LED,
wait 500 ms, print the status line. -/
def highBlock : List Event :=
  [Event.compRead true,
   Event.gpioToggle Pin.userLed,
   Event.delayMs 500,
   Event.printMsg Msg.normalMode]

/-- The hibernate entry sequence up to and including the hibernate call:
LED on, 2000 ms delay, LED off, message, console release, (variant-only)
high-impedance drive mode, hibernate call with the given wake source. -/
def hibEntryTrace (src : HibernateSource) (env : Env) : List Event :=
  [Event.gpioWrite Pin.userLed CYBSP_LED_STATE_ON,
   Event.delayMs 2000,
   Event.gpioWrite Pin.userLed CYBSP_LED_STATE_OFF,
   Event.printMsg Msg.enterHib,
   Event.retargetDeinit]
  ++ (if env.highZVariant then [Event.setDrivemodeHighZ] else [])
  ++ [Event.hibernateCall src]

/-- What follows the hibernate call: nothing on success, the failure
branch (console re-init with unchecked status, fatal message, trap)
otherwise. -/
def failTail (env : Env) : List Event :=
  if env.hibOk then []
  else [Event.retargetInit env.reinitOk,
        Event.printMsg Msg.fatalNotEntered,
        Event.assertTrap]

theorem lpcomp_eq (src : HibernateSource) (env : Env) :
    lpcomp_enter_hibernate_mode src env =
      (hibEntryTrace src env ++ failTail env,
       if env.hibOk then Outcome.hibernated else Outcome.halted) := by
  cases h : env.hibOk <;>
    simp [lpcomp_enter_hibernate_mode, hibEntryTrace, failTail, h]

theorem sensingLoop_nil (env : Env) :
    sensingLoop env [] = ([], Outcome.running) := rfl

theorem sensingLoop_cons_true (env : Env) (rs : List Bool) :
    sensingLoop env (true :: rs) =
      (highBlock ++ (sensingLoop env rs).1, (sensingLoop env rs).2) := by
  simp [sensingLoop, highBlock]

theorem sensingLoop_cons_false (env : Env) (rs : List Bool) :
    sensingLoop env (false :: rs) =
      (Event.compRead false
         :: hibEntryTrace CYHAL_SYSPM_HIBERNATE_LPCOMP0_HIGH env
         ++ failTail env,
       if env.hibOk then Outcome.hibernated else Outcome.halted) := by
  simp [sensingLoop, lpcomp_eq]

theorem sensingLoop_replicate_true (env : Env) (n : Nat) (rest : List Bool) :
    sensingLoop env (List.replicate n true ++ rest) =
      ((List.replicate n highBlock).flatten ++ (sensingLoop env rest).1,
       (sensingLoop env rest).2) := by
  induction n with
  | zero => simp
  | succ k ih =>
      simp [List.replicate_succ, sensingLoop_cons_true, ih]

theorem mainRun_ok (env : Env) (hb : env.bspOk = true) (hio : env.ioOk = true) :
    mainRun env =
      (setupTrace env ++ (sensingLoop env env.readings).1,
       (sensingLoop env env.readings).2) := by
  simp [mainRun, hb, hio, setupTrace]

theorem mainRun_bsp_fail (env : Env) (hb : env.bspOk = false) :
    mainRun env = ([Event.bspInit false, Event.assertTrap], Outcome.halted) := by
  simp [mainRun, hb]

theorem mainRun_io_fail (env : Env) (hb : env.bspOk = true)
    (hio : env.ioOk = false) :
    mainRun env =
      ([Event.bspInit true, Event.enableIrq, Event.retargetInit false,
        Event.assertTrap],
       Outcome.halted) := by
  simp [mainRun, hb, hio]

/-! ## Event discriminators used by the claims -/

/-- Is the event a hibernate commit call? -/
def isHibCall : Event → Bool
  | Event.hibernateCall _ => true
  | _ => false

/-- Is the event a comparator read? -/
def isCompRead : Event → Bool
  | Event.compRead _ => true
  | _ => false

/-- Is the event an indicator toggle? -/
def isToggle : Event → Bool
  | Event.gpioToggle _ => true
  | _ => false

theorem countP_flatten_replicate (p : Event → Bool) (l : List Event) (n : Nat) :
    ((List.replicate n l).flatten).countP p = n * l.countP p := by
  induction n with
  | zero => simp
  | succ k ih => simp [List.replicate_succ, List.countP_append, ih, Nat.succ_mul,
                       Nat.add_comm]

/-- Claim C1: in every run that passes initialisation, the first LOW
reading (after any number `n` of HIGH readings) is followed exactly by:
indicator ON, a 2000 ms delay, indicator OFF, the notice message, console
release, (variant-only drive-mode change,) and the hibernate commit call
with the fixed wake source — the full-trace equality fixes this exact
order with no reordering. -/
theorem claim_C1 (env : Env) (n : Nat) (rest : List Bool)
    (hb : env.bspOk = true) (hio : env.ioOk = true)
    (hr : env.readings = List.replicate n true ++ false :: rest) :
    (mainRun env).1 =
      setupTrace env
        ++ (List.replicate n highBlock).flatten
        ++ Event.compRead false
        :: ([Event.gpioWrite Pin.userLed CYBSP_LED_STATE_ON,
             Event.delayMs 2000,
             Event.gpioWrite Pin.userLed CYBSP_LED_STATE_OFF,
             Event.printMsg Msg.enterHib,
             Event.retargetDeinit]
            ++ (if env.highZVariant then [Event.setDrivemodeHighZ] else [])
            ++ Event.hibernateCall CYHAL_SYSPM_HIBERNATE_LPCOMP0_HIGH
            :: failTail env) := by
  rw [mainRun_ok env hb hio, hr]
  rw [sensingLoop_replicate_true, sensingLoop_cons_false]
  simp [hibEntryTrace]

theorem claim_C1_witness :
    (mainRun ⟨true, true, true, [true, false], true, true, false⟩).1 =
      setupTrace ⟨true, true, true, [true, false], true, true, false⟩
        ++ (List.replicate 1 highBlock).flatten
        ++ Event.compRead false
        :: ([Event.gpioWrite Pin.userLed CYBSP_LED_STATE_ON,
             Event.delayMs 2000,
             Event.gpioWrite Pin.userLed CYBSP_LED_STATE_OFF,
             Event.printMsg Msg.enterHib,
             Event.retargetDeinit]
            ++ (if (⟨true, true, true, [true, false], true, true, false⟩ : Env).highZVariant
                then [Event.setDrivemodeHighZ] else [])
            ++ Event.hibernateCall CYHAL_SYSPM_HIBERNATE_LPCOMP0_HIGH
            :: failTail ⟨true, true, true, [true, false], true, true, false⟩) :=
  claim_C1 ⟨true, true, true, [true, false], true, true, false⟩ 1 [] rfl rfl rfl

/-- Claim C2: when the hibernate commit returns non-success, the console
is re-initialised before the fatal message, the trap is the last event of
the run (so no further comparator reads and no state after the halt), the
outcome is `halted`, and exactly one hibernate call occurs (no retry). -/
theorem claim_C2 (env : Env) (n : Nat) (rest : List Bool)
    (hb : env.bspOk = true) (hio : env.ioOk = true)
    (hr : env.readings = List.replicate n true ++ false :: rest)
    (hfail : env.hibOk = false) :
    (mainRun env).1 =
      setupTrace env
        ++ (List.replicate n highBlock).flatten
        ++ Event.compRead false
        :: (hibEntryTrace CYHAL_SYSPM_HIBERNATE_LPCOMP0_HIGH env
            ++ [Event.retargetInit env.reinitOk,
                Event.printMsg Msg.fatalNotEntered,
                Event.assertTrap])
    ∧ (mainRun env).2 = Outcome.halted
    ∧ (mainRun env).1.countP isCompRead = n + 1
    ∧ (mainRun env).1.countP isHibCall = 1 := by
  have htr := mainRun_ok env hb hio
  rw [hr] at htr
  rw [sensingLoop_replicate_true, sensingLoop_cons_false] at htr
  refine ⟨?_, ?_, ?_, ?_⟩
  · rw [htr]
    simp [failTail, hfail]
  · rw [htr]
    simp [hfail]
  · rw [htr]
    simp only [List.countP_append, List.countP_cons, countP_flatten_replicate,
               setupTrace, highBlock, hibEntryTrace, failTail, hfail]
    cases hz : env.highZVariant <;> simp [isCompRead]
  · rw [htr]
    simp only [List.countP_append, List.countP_cons, countP_flatten_replicate,
               setupTrace, highBlock, hibEntryTrace, failTail, hfail]
    cases hz : env.highZVariant <;> simp [isHibCall]

theorem claim_C2_witness :
    (mainRun ⟨true, true, true, [false], false, true, false⟩).1 =
      setupTrace ⟨true, true, true, [false], false, true, false⟩
        ++ (List.replicate 0 highBlock).flatten
        ++ Event.compRead false
        :: (hibEntryTrace CYHAL_SYSPM_HIBERNATE_LPCOMP0_HIGH
              ⟨true, true, true, [false], false, true, false⟩
            ++ [Event.retargetInit true,
                Event.printMsg Msg.fatalNotEntered,
                Event.assertTrap])
    ∧ (mainRun ⟨true, true, true, [false], false, true, false⟩).2 = Outcome.halted
    ∧ (mainRun ⟨true, true, true, [false], false, true, false⟩).1.countP isCompRead = 0 + 1
    ∧ (mainRun ⟨true, true, true, [false], false, true, false⟩).1.countP isHibCall = 1 :=
  claim_C2 ⟨true, true, true, [false], false, true, false⟩ 0 [] rfl rfl rfl rfl

theorem sensingLoop_hibCall_src (env : Env) :
    ∀ rs src, Event.hibernateCall src ∈ (sensingLoop env rs).1 →
      src = HibernateSource.lpcomp0High := by
  intro rs
  induction rs with
  | nil =>
      intro src h
      simp [sensingLoop_nil] at h
  | cons r rs ih =>
      intro src h
      cases r
      · rw [sensingLoop_cons_false] at h
        cases hz : env.highZVariant <;> cases hh : env.hibOk <;>
          simp [hibEntryTrace, failTail, hz, hh,
                CYHAL_SYSPM_HIBERNATE_LPCOMP0_HIGH] at h <;>
          exact h
      · rw [sensingLoop_cons_true] at h
        simp [highBlock] at h
        exact ih src h

/-- Claim C3: every hibernate commit call in every run carries the fixed
wake source `CYHAL_SYSPM_HIBERNATE_LPCOMP0_HIGH` (comparator channel 0
output high); no other wake source is ever passed. -/
theorem claim_C3 (env : Env) (src : HibernateSource)
    (h : Event.hibernateCall src ∈ (mainRun env).1) :
    src = CYHAL_SYSPM_HIBERNATE_LPCOMP0_HIGH := by
  cases hb : env.bspOk
  · rw [mainRun_bsp_fail env hb] at h
    simp at h
  · cases hio : env.ioOk
    · rw [mainRun_io_fail env hb hio] at h
      simp at h
    · rw [mainRun_ok env hb hio] at h
      rcases List.mem_append.mp h with h | h
      · simp [setupTrace] at h
      · exact sensingLoop_hibCall_src env env.readings src h

theorem claim_C3_witness :
    Event.hibernateCall HibernateSource.lpcomp0High ∈
      (mainRun ⟨true, true, true, [false], true, true, false⟩).1
    ∧ HibernateSource.lpcomp0High = CYHAL_SYSPM_HIBERNATE_LPCOMP0_HIGH :=
  ⟨by decide,
   claim_C3 ⟨true, true, true, [false], true, true, false⟩
     HibernateSource.lpcomp0High (by decide)⟩

/-! ## Claim C4: the HIGH-reading pattern -/

/-- Is the event a HIGH comparator read? -/
def isHighRead : Event → Bool
  | Event.compRead true => true
  | _ => false

/-- Checks that every HIGH comparator read in a trace is immediately
followed by exactly one indicator toggle, a 500 ms delay and the status
message, and that the event after that block (if any) is the next
comparator read. -/
def highReadsFollowed : List Event → Bool
  | Event.compRead true :: Event.gpioToggle Pin.userLed :: Event.delayMs 500
      :: Event.printMsg Msg.normalMode :: rest =>
      (match rest with
       | [] => true
       | Event.compRead _ :: _ => true
       | _ => false)
      && highReadsFollowed rest
  | Event.compRead true :: _ => false
  | _ :: rest => highReadsFollowed rest
  | [] => true

theorem sensingLoop_head_shape (env : Env) (rs : List Bool) :
    (sensingLoop env rs).1 = [] ∨
      ∃ v t, (sensingLoop env rs).1 = Event.compRead v :: t := by
  cases rs with
  | nil => left; rfl
  | cons r rs =>
      right
      cases r
      · rw [sensingLoop_cons_false]
        exact ⟨false, _, rfl⟩
      · rw [sensingLoop_cons_true]
        exact ⟨true,
               Event.gpioToggle Pin.userLed :: Event.delayMs 500
                 :: Event.printMsg Msg.normalMode :: (sensingLoop env rs).1,
               by simp [highBlock]⟩

theorem highReadsFollowed_sensingLoop (env : Env) :
    ∀ rs, highReadsFollowed (sensingLoop env rs).1 = true := by
  intro rs
  induction rs with
  | nil => rfl
  | cons r rs ih =>
      cases r
      · rw [sensingLoop_cons_false]
        cases hz : env.highZVariant <;> cases hh : env.hibOk <;>
          simp [hibEntryTrace, failTail, hz, hh, highReadsFollowed]
      · rw [sensingLoop_cons_true]
        rcases sensingLoop_head_shape env rs with he | ⟨v, t, he⟩ <;>
          rw [he] at ih ⊢ <;>
          simp [highBlock, highReadsFollowed, ih]

theorem countToggles_eq_highReads_sensingLoop (env : Env) :
    ∀ rs, (sensingLoop env rs).1.countP isToggle =
      (sensingLoop env rs).1.countP isHighRead := by
  intro rs
  induction rs with
  | nil => rfl
  | cons r rs ih =>
      cases r
      · rw [sensingLoop_cons_false]
        cases hz : env.highZVariant <;> cases hh : env.hibOk <;>
          simp [hibEntryTrace, failTail, hz, hh, List.countP_cons,
                List.countP_append, isToggle, isHighRead]
      · rw [sensingLoop_cons_true]
        simp [highBlock, List.countP_cons, List.countP_append, isToggle,
              isHighRead, ih]

/-- Claim C4: in every run, every HIGH comparator reading is immediately
followed by exactly one indicator toggle and one 500 ms blocking delay
(plus the status line) before the comparator is sampled again, and the
number of toggles in the whole run equals the number of HIGH readings. -/
theorem claim_C4 (env : Env) :
    highReadsFollowed (mainRun env).1 = true
    ∧ (mainRun env).1.countP isToggle = (mainRun env).1.countP isHighRead := by
  cases hb : env.bspOk
  · rw [mainRun_bsp_fail env hb]
    exact ⟨rfl, rfl⟩
  · cases hio : env.ioOk
    · rw [mainRun_io_fail env hb hio]
      exact ⟨rfl, rfl⟩
    · rw [mainRun_ok env hb hio]
      constructor
      · have h := highReadsFollowed_sensingLoop env env.readings
        simp only [setupTrace]
        simp [highReadsFollowed, List.cons_append, List.nil_append]
        exact h
      · have h := countToggles_eq_highReads_sensingLoop env env.readings
        simp [setupTrace, List.countP_append, List.countP_cons, isToggle,
              isHighRead, h]

/-! ## Claim C5: nothing is read after the first LOW reading -/

/-- Checks that no comparator read occurs anywhere after a LOW read. -/
def noReadAfterLowRead : List Event → Bool
  | [] => true
  | Event.compRead false :: rest => rest.all fun e => !(isCompRead e)
  | _ :: rest => noReadAfterLowRead rest

theorem exists_first_false :
    ∀ rs : List Bool, false ∈ rs →
      ∃ n rest, rs = List.replicate n true ++ false :: rest := by
  intro rs
  induction rs with
  | nil => intro h; simp at h
  | cons r rs ih =>
      intro h
      cases r
      · exact ⟨0, rs, rfl⟩
      · have hf : false ∈ rs := by simpa using h
        obtain ⟨n, rest, hn⟩ := ih hf
        exact ⟨n + 1, rest, by simp [List.replicate_succ, hn]⟩

theorem noReadAfterLowRead_sensingLoop (env : Env) :
    ∀ rs, noReadAfterLowRead (sensingLoop env rs).1 = true := by
  intro rs
  induction rs with
  | nil => rfl
  | cons r rs ih =>
      cases r
      · rw [sensingLoop_cons_false]
        cases hz : env.highZVariant <;> cases hh : env.hibOk <;>
          simp [hibEntryTrace, failTail, hz, hh, noReadAfterLowRead,
                isCompRead]
      · rw [sensingLoop_cons_true]
        simp [highBlock, noReadAfterLowRead, ih]

/-- Claim C5: a run that passes initialisation and sees a LOW reading ends
in hibernation when the hibernate call succeeds and in a halt otherwise —
never back in the loop — and no comparator read occurs after the LOW
reading. -/
theorem claim_C5 (env : Env)
    (hb : env.bspOk = true) (hio : env.ioOk = true)
    (hlow : false ∈ env.readings) :
    (mainRun env).2 = (if env.hibOk then Outcome.hibernated else Outcome.halted)
    ∧ (mainRun env).2 ≠ Outcome.running
    ∧ noReadAfterLowRead (mainRun env).1 = true := by
  obtain ⟨n, rest, hn⟩ := exists_first_false env.readings hlow
  have htr := mainRun_ok env hb hio
  rw [hn, sensingLoop_replicate_true, sensingLoop_cons_false] at htr
  refine ⟨?_, ?_, ?_⟩
  · rw [htr]
  · rw [htr]
    cases env.hibOk <;> simp
  · rw [htr]
    have h := noReadAfterLowRead_sensingLoop env env.readings
    rw [hn, sensingLoop_replicate_true, sensingLoop_cons_false] at h
    simp only [setupTrace]
    simp only [List.cons_append, List.nil_append, noReadAfterLowRead]
    exact h

theorem claim_C5_witness :
    (mainRun ⟨true, true, true, [false], true, true, false⟩).2 =
      (if (⟨true, true, true, [false], true, true, false⟩ : Env).hibOk
       then Outcome.hibernated else Outcome.halted)
    ∧ (mainRun ⟨true, true, true, [false], true, true, false⟩).2 ≠ Outcome.running
    ∧ noReadAfterLowRead (mainRun ⟨true, true, true, [false], true, true, false⟩).1
        = true :=
  claim_C5 ⟨true, true, true, [false], true, true, false⟩ rfl rfl (by decide)

/-- Claim C6: if board initialisation or console initialisation fails, the
run halts with an assertion trap and its trace contains no comparator
read, no indicator toggle and no hibernate call. -/
theorem claim_C6 (env : Env)
    (h : env.bspOk = false ∨ env.ioOk = false) :
    (mainRun env).2 = Outcome.halted
    ∧ Event.assertTrap ∈ (mainRun env).1
    ∧ (mainRun env).1.countP isCompRead = 0
    ∧ (mainRun env).1.countP isToggle = 0
    ∧ (mainRun env).1.countP isHibCall = 0 := by
  cases hb : env.bspOk
  · rw [mainRun_bsp_fail env hb]
    refine ⟨rfl, by simp, rfl, rfl, rfl⟩
  · rcases h with h | h
    · rw [hb] at h; cases h
    · rw [mainRun_io_fail env hb h]
      refine ⟨rfl, by simp, rfl, rfl, rfl⟩

theorem claim_C6_witness :
    (mainRun ⟨true, false, true, [true], true, true, false⟩).2 = Outcome.halted
    ∧ Event.assertTrap ∈ (mainRun ⟨true, false, true, [true], true, true, false⟩).1
    ∧ (mainRun ⟨true, false, true, [true], true, true, false⟩).1.countP isCompRead = 0
    ∧ (mainRun ⟨true, false, true, [true], true, true, false⟩).1.countP isToggle = 0
    ∧ (mainRun ⟨true, false, true, [true], true, true, false⟩).1.countP isHibCall = 0 :=
  claim_C6 ⟨true, false, true, [true], true, true, false⟩ (Or.inr rfl)

/-- Counterexample to claim C7 as stated: with board and console
initialisation succeeding but the comparator initialisation returning a
failure status, the run does not halt — the failure status is recorded and
ignored, the sensing loop runs (a comparator read occurs) and no assertion
trap is ever reached. -/
theorem claim_C7_counterexample :
    Event.compInit myCompConfig false ∈
      (mainRun ⟨true, true, false, [true], true, true, false⟩).1
    ∧ (mainRun ⟨true, true, false, [true], true, true, false⟩).2 = Outcome.running
    ∧ Event.assertTrap ∉ (mainRun ⟨true, true, false, [true], true, true, false⟩).1
    ∧ (mainRun ⟨true, true, false, [true], true, true, false⟩).1.countP isCompRead
        = 1 := by
  refine ⟨by decide, by decide, by decide, by decide⟩

/-- Claim C7 (amended): board initialisation failure and console
initialisation failure each halt via the assertion trap before any
comparator activity; the comparator peripheral's own initialisation status
is not checked, so execution proceeds into the sensing loop regardless of
it. -/
theorem claim_C7 (env : Env) :
    ((env.bspOk = false ∨ env.ioOk = false) →
      (mainRun env).2 = Outcome.halted
      ∧ Event.assertTrap ∈ (mainRun env).1
      ∧ (mainRun env).1.countP isCompRead = 0)
    ∧ (env.bspOk = true → env.ioOk = true →
      mainRun env =
        (setupTrace env ++ (sensingLoop env env.readings).1,
         (sensingLoop env env.readings).2)) := by
  constructor
  · intro h
    cases hb : env.bspOk
    · rw [mainRun_bsp_fail env hb]
      exact ⟨rfl, by simp, rfl⟩
    · rcases h with h | h
      · rw [hb] at h; cases h
      · rw [mainRun_io_fail env hb h]
        exact ⟨rfl, by simp, rfl⟩
  · intro hb hio
    exact mainRun_ok env hb hio

theorem claim_C7_witness :
    ((mainRun ⟨false, true, true, [], true, true, false⟩).2 = Outcome.halted
      ∧ Event.assertTrap ∈ (mainRun ⟨false, true, true, [], true, true, false⟩).1
      ∧ (mainRun ⟨false, true, true, [], true, true, false⟩).1.countP isCompRead = 0)
    ∧ mainRun ⟨true, true, false, [true], true, true, false⟩ =
        (setupTrace ⟨true, true, false, [true], true, true, false⟩
           ++ (sensingLoop ⟨true, true, false, [true], true, true, false⟩ [true]).1,
         (sensingLoop ⟨true, true, false, [true], true, true, false⟩ [true]).2) :=
  ⟨(claim_C7 ⟨false, true, true, [], true, true, false⟩).1 (Or.inl rfl),
   (claim_C7 ⟨true, true, false, [true], true, true, false⟩).2 rfl rfl⟩

/-! ## Claim C8: the comparator configuration is fixed -/

/-- All comparator configuration values ever handed to the comparator
peripheral during a run, in order. -/
def configWrites (t : List Event) : List CompConfig :=
  t.filterMap fun e =>
    match e with
    | Event.compInit cfg _ => some cfg
    | _ => none

theorem configWrites_sensingLoop (env : Env) :
    ∀ rs, configWrites (sensingLoop env rs).1 = [] := by
  intro rs
  induction rs with
  | nil => rfl
  | cons r rs ih =>
      cases r
      · rw [sensingLoop_cons_false]
        cases hz : env.highZVariant <;> cases hh : env.hibOk <;>
          simp [hibEntryTrace, failTail, hz, hh, configWrites]
      · rw [sensingLoop_cons_true]
        simp only [highBlock, configWrites] at ih ⊢
        simp [List.filterMap_cons, ih]

/-- Claim C8: the comparator configuration record is the fixed value
{power = low, hysteresis = disabled}; in every run it is handed to the
peripheral at most once (at start-up) and no later operation ever carries
a comparator configuration — it is never mutated. -/
theorem claim_C8 (env : Env) :
    myCompConfig = { power := PowerLevel.low, hysteresis := false }
    ∧ (configWrites (mainRun env).1 = [myCompConfig]
       ∨ configWrites (mainRun env).1 = []) := by
  refine ⟨rfl, ?_⟩
  cases hb : env.bspOk
  · rw [mainRun_bsp_fail env hb]
    right; rfl
  · cases hio : env.ioOk
    · rw [mainRun_io_fail env hb hio]
      right; rfl
    · rw [mainRun_ok env hb hio]
      left
      have h := configWrites_sensingLoop env env.readings
      simp only [configWrites] at h ⊢
      simp [setupTrace, List.filterMap_append, List.filterMap_cons, h]

/-- Claim C10: on the hibernate-failure path the status of the console
re-initialisation is not checked: for every status value the environment
assigns to the re-initialisation (`env.reinitOk` is universally
quantified), the fatal message and the trap follow it unchanged and the
run halts. -/
theorem claim_C10 (env : Env) (src : HibernateSource)
    (hfail : env.hibOk = false) :
    (lpcomp_enter_hibernate_mode src env).2 = Outcome.halted
    ∧ (lpcomp_enter_hibernate_mode src env).1 =
        hibEntryTrace src env
          ++ [Event.retargetInit env.reinitOk,
              Event.printMsg Msg.fatalNotEntered,
              Event.assertTrap] := by
  rw [lpcomp_eq src env]
  simp [failTail, hfail]

theorem claim_C10_witness :
    (lpcomp_enter_hibernate_mode HibernateSource.lpcomp0High
        ⟨true, true, true, [], false, false, false⟩).2 = Outcome.halted
    ∧ (lpcomp_enter_hibernate_mode HibernateSource.lpcomp0High
        ⟨true, true, true, [], false, false, false⟩).1 =
        hibEntryTrace HibernateSource.lpcomp0High
            ⟨true, true, true, [], false, false, false⟩
          ++ [Event.retargetInit false,
              Event.printMsg Msg.fatalNotEntered,
              Event.assertTrap] :=
  claim_C10 ⟨true, true, true, [], false, false, false⟩
    HibernateSource.lpcomp0High rfl

/-! ## Claim C9: the indicator state outside the pre-hibernate signal -/

/-- State of the indicator line after one event: `none` while the pin is
uninitialised, `some level` afterwards.  Only the GPIO events on the user
LED touch it. -/
def applyLed (s : Option Bool) (e : Event) : Option Bool :=
  match e with
  | Event.gpioInit Pin.userLed v => some v
  | Event.gpioWrite Pin.userLed v => some v
  | Event.gpioToggle Pin.userLed => s.map fun b => !b
  | _ => s

/-- Indicator state after a trace, starting from an uninitialised pin. -/
def ledAfter (t : List Event) : Option Bool :=
  t.foldl applyLed none

/-- Number of indicator toggles in a trace. -/
def countToggles (t : List Event) : Nat :=
  t.countP isToggle

/-- The start-up trace minus its final event (the LED pin initialisation). -/
def setupPre (env : Env) : List Event :=
  [Event.bspInit true,
   Event.enableIrq,
   Event.retargetInit true,
   Event.printMsg Msg.clearScreen,
   Event.printMsg Msg.banner,
   Event.compInit myCompConfig env.compInitOk,
   Event.connectUlpReference,
   Event.ulpReferenceEnable,
   Event.compSetPower PowerLevel.low,
   Event.delayUs 50]

theorem setupTrace_eq_setupPre (env : Env) :
    setupTrace env =
      setupPre env ++ [Event.gpioInit Pin.userLed CYBSP_LED_STATE_OFF] := rfl

theorem foldl_applyLed_no_write :
    ∀ (p : List Event),
      (∀ v, Event.gpioWrite Pin.userLed v ∉ p) →
      (∀ v, Event.gpioInit Pin.userLed v ∉ p) →
      ∀ b : Bool,
        List.foldl applyLed (some b) p =
          some (xor b (countToggles p % 2 == 1)) := by
  intro p
  induction p with
  | nil =>
      intro _ _ b
      simp [countToggles]
  | cons e p ih =>
      intro hw hi b
      have hw' : ∀ v, Event.gpioWrite Pin.userLed v ∉ p := by
        intro v hv
        exact hw v (List.mem_cons_of_mem _ hv)
      have hi' : ∀ v, Event.gpioInit Pin.userLed v ∉ p := by
        intro v hv
        exact hi v (List.mem_cons_of_mem _ hv)
      cases e <;>
        try (simp only [List.foldl_cons, applyLed]
             rw [ih hw' hi' b]
             simp [countToggles, List.countP_cons, isToggle])
      case gpioWrite pin v =>
        cases pin
        exact absurd (List.mem_cons_self _ _) (hw v)
      case gpioInit pin v =>
        cases pin
        exact absurd (List.mem_cons_self _ _) (hi v)
      case gpioToggle pin =>
        cases pin
        have hk : countToggles (Event.gpioToggle Pin.userLed :: p)
            = countToggles p + 1 := by
          simp [countToggles, List.countP_cons, isToggle]
        rw [hk]
        have hstep :
            List.foldl applyLed (some b) (Event.gpioToggle Pin.userLed :: p)
              = List.foldl applyLed (some (!b)) p := by
          simp [applyLed]
        rw [hstep, ih hw' hi' (!b)]
        rcases Nat.mod_two_eq_zero_or_one (countToggles p) with h | h
        · have h1 : (countToggles p + 1) % 2 = 1 := by omega
          cases b <;> simp [h, h1]
        · have h1 : (countToggles p + 1) % 2 = 0 := by omega
          cases b <;> simp [h, h1]

theorem no_gpioInit_sensingLoop (env : Env) :
    ∀ rs v, Event.gpioInit Pin.userLed v ∉ (sensingLoop env rs).1 := by
  intro rs
  induction rs with
  | nil =>
      intro v h
      simp [sensingLoop_nil] at h
  | cons r rs ih =>
      intro v h
      cases r
      · rw [sensingLoop_cons_false] at h
        cases hz : env.highZVariant <;> cases hh : env.hibOk <;>
          simp [hibEntryTrace, failTail, hz, hh] at h
      · rw [sensingLoop_cons_true] at h
        simp [highBlock] at h
        exact ih v h

/-- Claim C9: at every point of every run outside the 2-second
pre-hibernate signal — formally, after any prefix `p` of the trace that
contains the LED pin initialisation and no direct LED write (direct
writes occur only in the pre-hibernate signal) — the indicator state is
defined and equals the toggle rule applied to the initial OFF level: ON
exactly when the number of toggles so far is odd. -/
theorem claim_C9 (env : Env) (p q : List Event)
    (hsplit : (mainRun env).1 = p ++ q)
    (hinit : Event.gpioInit Pin.userLed CYBSP_LED_STATE_OFF ∈ p)
    (hnw : ∀ v, Event.gpioWrite Pin.userLed v ∉ p) :
    ledAfter p = some (countToggles p % 2 == 1) := by
  cases hb : env.bspOk
  · have hm := List.mem_append_left q hinit
    rw [← hsplit, mainRun_bsp_fail env hb] at hm
    simp at hm
  · cases hio : env.ioOk
    · have hm := List.mem_append_left q hinit
      rw [← hsplit, mainRun_io_fail env hb hio] at hm
      simp at hm
    · have htr := mainRun_ok env hb hio
      have htr1 : (mainRun env).1 =
          setupTrace env ++ (sensingLoop env env.readings).1 := by
        rw [htr]
      have heq : p ++ q =
          setupPre env ++ (Event.gpioInit Pin.userLed CYBSP_LED_STATE_OFF
            :: (sensingLoop env env.readings).1) := by
        rw [← hsplit, htr1, setupTrace_eq_setupPre]
        simp
      rcases List.append_eq_append_iff.mp heq with ⟨a, ha1, _⟩ | ⟨a, ha1, ha2⟩
      · have hm := List.mem_append_left a hinit
        rw [← ha1] at hm
        simp [setupPre] at hm
      · cases a with
        | nil =>
            rw [ha1] at hinit
            simp [setupPre] at hinit
        | cons e a' =>
            rw [List.cons_append] at ha2
            injection ha2 with h1 h2
            subst h1
            have hnw' : ∀ v, Event.gpioWrite Pin.userLed v ∉ a' := by
              intro v hv
              exact hnw v (by
                rw [ha1]
                exact List.mem_append_right _ (List.mem_cons_of_mem _ hv))
            have hni' : ∀ v, Event.gpioInit Pin.userLed v ∉ a' := by
              intro v hv
              exact no_gpioInit_sensingLoop env env.readings v (by
                rw [h2]
                exact List.mem_append_left q hv)
            rw [ha1]
            have hpre : List.foldl applyLed none (setupPre env) = none := by
              simp [setupPre, applyLed]
            have hct : countToggles
                (setupPre env
                  ++ Event.gpioInit Pin.userLed CYBSP_LED_STATE_OFF :: a')
                = countToggles a' := by
              simp [countToggles, List.countP_append, List.countP_cons,
                    setupPre, isToggle]
            rw [hct]
            show List.foldl applyLed none
                (setupPre env
                  ++ Event.gpioInit Pin.userLed CYBSP_LED_STATE_OFF :: a')
              = some (countToggles a' % 2 == 1)
            rw [List.foldl_append, hpre, List.foldl_cons]
            have happ : applyLed none
                (Event.gpioInit Pin.userLed CYBSP_LED_STATE_OFF)
                = some false := rfl
            rw [happ, foldl_applyLed_no_write a' hnw' hni' false]
            simp

theorem claim_C9_witness :
    ledAfter (mainRun ⟨true, true, true, [true], true, true, false⟩).1 =
      some (countToggles
        (mainRun ⟨true, true, true, [true], true, true, false⟩).1 % 2 == 1) :=
  claim_C9 ⟨true, true, true, [true], true, true, false⟩
    (mainRun ⟨true, true, true, [true], true, true, false⟩).1 []
    (by simp) (by decide) (by intro v; cases v <;> decide)
